import Mathlib

/-!
# Verification of the macOS build/obfuscate/package pipeline

A shallow embedding of the two build scripts of the repository,
`build_mac_cython.py` (the Cython ahead-of-time compiler driver) and
`build_obfuscated_mac.py` (the PyInstaller bundling pipeline), together
with proofs checking the natural-language specification's claims against
them.

Filesystem trees are modelled as association lists from relative paths
(lists of path components) to file contents; every fragment of the
scripts that the claims touch is translated into a pure function over
this model.  External tools (the Cython/setuptools compiler, sqlite3,
PyInstaller) are opaque subprocesses: where a claim depends on their
output conventions, the convention is modelled from the spec and marked
as such in the doc comment.
-/

/-! ## String helpers (counterparts of Python's str operations) -/

/-- Python `s.endswith(pat)`: the final characters of `s` are `pat`. -/
def strEnds (s pat : String) : Bool :=
  s.data.drop (s.data.length - pat.data.length) == pat.data

/-- Python `s.startswith(pat)`: the initial characters of `s` are `pat`. -/
def strStarts (s pat : String) : Bool :=
  s.data.take pat.data.length == pat.data

/-- Helper for Python's `pat in s`: `pat` occurs contiguously in `s`. -/
def charsHaveSub (pat : List Char) : List Char → Bool
  | [] => pat.isEmpty
  | c :: t => ((c :: t).take pat.length == pat) || charsHaveSub pat t

/-- Python `pat in s` on strings. -/
def strHasSub (s pat : String) : Bool := charsHaveSub pat.data s.data

/-- Python `s.lower()` (the filenames involved are ASCII). -/
def lowerStr (s : String) : String := String.mk (s.data.map Char.toLower)

/-! ## Filesystem model

A tree is a list of (relative path, content) entries; each entry is a
regular file.  `fsWrite` has the overwrite semantics of `shutil.copy2`:
any existing entry at the path is replaced. -/

abbrev FsPath := List String

abbrev FsEntry := FsPath × String

abbrev Fs := List FsEntry

/-- The final path component (Python `Path(...).name`); `""` for the empty path. -/
def fileName (p : FsPath) : String := p.getLastD ""

/-- `d` is an initial segment of `p` (path `p` lies at or under `d`). -/
def isPre : FsPath → FsPath → Bool
  | [], _ => true
  | _ :: _, [] => false
  | a :: as, b :: bs => a == b && isPre as bs

/-- How many entries of the tree sit exactly at path `q`. -/
def fsCount (t : Fs) (q : FsPath) : Nat := (t.filter (fun e => e.1 == q)).length

/-- Write content `c` at path `q`, replacing any existing entry there
(`shutil.copy2` overwrite semantics). -/
def fsWrite (t : Fs) (q : FsPath) (c : String) : Fs :=
  t.filter (fun e => !(e.1 == q)) ++ [(q, c)]

/-- Perform a sequence of writes in order. -/
def writeAll (t : Fs) (ws : List FsEntry) : Fs :=
  ws.foldl (fun acc w => fsWrite acc w.1 w.2) t

/-! ## `build_mac_cython.py`: the compiler driver -/

/-- `target_dirs = ['core', 'utils', 'ui']` (build_mac_cython.py line 9). -/
def targetDirs : List String := ["core", "utils", "ui"]

/-- `file.endswith('.py') and file != '__init__.py'` (line 21). -/
def pyEligibleName (f : String) : Bool := strEnds f ".py" && !(f == "__init__.py")

/-- `'turnstilePatch' in str(rel_path)` (line 27): the token contains no
path separator, so substring of the joined path is occurrence in some
component. -/
def relPathExcluded (p : FsPath) : Bool := p.any (fun c => strHasSub c "turnstilePatch")

/-- All files the `os.walk` of `src_dir/d` yields, as paths relative to
`src_dir` (so a path of length ≥ 2 whose first component is `d`). -/
def filesUnderDir (tree : Fs) (d : String) : List FsPath :=
  (tree.map Prod.fst).filter (fun p => p.head? == some d && decide (2 ≤ p.length))

/-- The scan of build_mac_cython.py lines 13–37: for each target
directory in order, every `.py` file under it except `__init__.py` and
paths containing `turnstilePatch`. -/
def scanModules (tree : Fs) : List FsPath :=
  targetDirs.foldl
    (fun acc d =>
      acc ++ (filesUnderDir tree d).filter
        (fun p => pyEligibleName (fileName p) && !relPathExcluded p))
    []

/-- The combined eligibility condition a path must meet to be scanned. -/
def scanEligible (p : FsPath) : Bool :=
  match p with
  | _ :: _ :: _ =>
    targetDirs.contains (p.headD "") && pyEligibleName (fileName p) && !relPathExcluded p
  | _ => false

/-- `rel_path.with_suffix('')` on the file name: drop the trailing `.py`. -/
def stripPy (f : String) : String := String.mk (f.data.take (f.data.length - 3))

/-- `'.'.join(rel_path.with_suffix('').parts)` (line 24). -/
def moduleNameOf (p : FsPath) : String :=
  String.intercalate "." (p.dropLast ++ [stripPy (fileName p)])

/-- The file name of the compiled binary for a module (macOS suffix `.so`). -/
def soFileName (p : FsPath) : String := stripPy (fileName p) ++ ".so"

/-- The module's original relative directory with the binary file name:
where the relocation of lines 74–83 puts the artifact. -/
def artifactDest (p : FsPath) : FsPath := p.dropLast ++ [soFileName p]

/-- Modelled from the spec (§4.4, §6): the ahead-of-time compiler
toolchain — invoked as the opaque `setup`/`cythonize` call — places one
binary artifact per extension module under the platform/ABI-tagged
subdirectory `build/lib.<tag>/`, mirroring the module's relative path. -/
def buildOutPath (tag : String) (p : FsPath) : FsPath :=
  "build" :: ("lib." ++ tag) :: artifactDest p

/-- Modelled from the spec (§4.4, §6): the set of writes the compiler
toolchain performs, one artifact per scanned module. -/
def compilerOutputs (tag : String) (mods : List FsPath) : List FsEntry :=
  mods.map (fun p => (buildOutPath tag p, "so:" ++ moduleNameOf p))

/-- A path the `os.walk(build_lib)` of lines 70–85 yields (a file inside
the `build` directory). -/
def isUnderBuild (p : FsPath) : Bool := p.head? == some "build" && decide (2 ≤ p.length)

/-- Lines 75–81: the destination of a file found under `build`: its path
relative to `build`, with a leading `lib.*` component stripped, keeping
the file name. -/
def destOfBuild (p : FsPath) : FsPath :=
  (match (p.drop 1).dropLast with
   | h :: t => if strStarts h "lib." then t else h :: t
   | [] => []) ++ [fileName p]

/-- Lines 70–85: the copies performed while walking `build`: every file
ending in `.so` is copied to its stripped relative path. -/
def relocateWrites (t : Fs) : List FsEntry :=
  (t.filter (fun e => isUnderBuild e.1 && strEnds (fileName e.1) ".so")).map
    (fun e => (destOfBuild e.1, e.2))

/-- Lines 89–98: `shutil.rmtree(build_lib)` and deletion of every
generated `.c` file — an entry survives iff it is not under `build` and
does not end in `.c`. -/
def cleanupKeep (p : FsPath) : Bool :=
  !(isUnderBuild p) && !(strEnds (fileName p) ".c")

/-- `build_modules` (build_mac_cython.py lines 8–98) as a transformation
of the staged source tree: scan, compile (spec-modelled toolchain
output), relocate the artifacts, clean up.  With no eligible modules the
function returns early (line 41). -/
def buildModulesRun (tag : String) (tree : Fs) : Fs :=
  let mods := scanModules tree
  if mods.isEmpty then tree
  else
    let afterCompile := writeAll tree (compilerOutputs tag mods)
    let afterCopy := writeAll afterCompile (relocateWrites afterCompile)
    afterCopy.filter (fun e => cleanupKeep e.1)

/-- The designated entry-point file retained by the stripper. -/
def entryPointPath : FsPath := ["main.py"]

/-- Modelled from the spec (§4.5): the Source Stripper — a stage of this
repository not present under `src/` — deletes every interpretable
(`.py`) file of the staged tree except the designated entry-point file,
package-marker (`__init__.py`) files, and files matching the exclusion
denylist (`turnstilePatch`). -/
def stripKeep (p : FsPath) : Bool :=
  !(strEnds (fileName p) ".py" && !(p == entryPointPath)
    && !(fileName p == "__init__.py") && !relPathExcluded p)

/-- Modelled from the spec (§4.5): the Source Stripper stage. -/
def stripSources (tree : Fs) : Fs := tree.filter (fun e => stripKeep e.1)

/-- Stages 4–5 of the pipeline: compile (with relocation and cleanup)
then strip the interpretable sources. -/
def compileAndStrip (tag : String) (tree : Fs) : Fs :=
  stripSources (buildModulesRun tag tree)

/-! ## `build_obfuscated_mac.py`: the bundling pipeline -/

/-- The complete hard-coded `--hidden-import=` list of
build_obfuscated_mac.py lines 183–277, in order. -/
def hiddenImportNames : List String := [
  "PyQt6", "requests", "logging.handlers",
  "logging.config", "cryptography", "cryptography.hazmat",
  "cryptography.hazmat.backends", "cryptography.hazmat.primitives", "cryptography.hazmat.primitives.padding",
  "cryptography.hazmat.primitives.serialization", "cryptography.hazmat.primitives.hashes", "cryptography.hazmat.primitives.ciphers",
  "cryptography.hazmat.primitives.ciphers.modes", "cryptography.hazmat.primitives.ciphers.algorithms", "cryptography.hazmat.primitives.asymmetric",
  "cryptography.hazmat.primitives.asymmetric.padding", "jwt", "psutil",
  "imaplib", "email", "email.header",
  "email.utils", "uuid", "DrissionPage",
  "ui.about_widget", "ui.settings_widget", "ui.account_pool_widget",
  "ui.email_config_widget", "ui.registration_widget", "ui.account_detail_dialog",
  "ui.add_account_dialog", "core.registration_engine", "core.account_manager",
  "core.auth_injector", "core.backend_api", "core.cursor_api",
  "core.email_handler", "core.legacy_email_handler", "core.drission_modules",
  "core.drission_modules.account_storage", "core.drission_modules.auto_register", "core.drission_modules.browser_manager",
  "core.drission_modules.card_pool_manager", "core.drission_modules.country_codes", "core.drission_modules.cursor_switcher",
  "core.drission_modules.deep_token_getter", "core.drission_modules.email_verification", "core.drission_modules.machine_id_generator",
  "core.drission_modules.payment_handler", "core.drission_modules.phone_handler", "core.drission_modules.registration_steps",
  "core.drission_modules.token_handler", "core.drission_modules.turnstile_handler", "core.drission_modules.us_address_generator",
  "utils.crypto", "utils.app_paths", "utils.version_checker",
  "utils.license_monitor", "PyQt6.QtWebSockets", "src.ui.about_widget",
  "src.ui.settings_widget", "src.ui.account_pool_widget", "src.ui.email_config_widget",
  "src.ui.registration_widget", "src.ui.account_detail_dialog", "src.ui.add_account_dialog",
  "src.core.registration_engine", "src.core.account_manager", "src.core.auth_injector",
  "src.core.backend_api", "src.core.cursor_api", "src.core.email_handler",
  "src.core.legacy_email_handler", "src.core.drission_modules", "src.core.drission_modules.account_storage",
  "src.core.drission_modules.auto_register", "src.core.drission_modules.browser_manager", "src.core.drission_modules.card_pool_manager",
  "src.core.drission_modules.country_codes", "src.core.drission_modules.cursor_switcher", "src.core.drission_modules.deep_token_getter",
  "src.core.drission_modules.email_verification", "src.core.drission_modules.machine_id_generator", "src.core.drission_modules.payment_handler",
  "src.core.drission_modules.phone_handler", "src.core.drission_modules.registration_steps", "src.core.drission_modules.token_handler",
  "src.core.drission_modules.turnstile_handler", "src.core.drission_modules.us_address_generator", "src.utils.crypto",
  "src.utils.app_paths", "src.utils.version_checker", "src.utils.license_monitor",
  "src.utils.logger", "utils.logger"]

/-- The filesystem facts lines 119–121 consult: whether
`obfuscated_src/main.py` exists (entry selection) and whether `ui` /
`core` directories exist in `obfuscated_src` and in `src`. -/
structure ProjectDirs where
  obfMainExists : Bool
  obfUiExists : Bool
  obfCoreExists : Bool
  srcUiExists : Bool
  srcCoreExists : Bool
deriving DecidableEq

/-- `(entry_dir / "ui").exists()`: `entry_dir` is `obfuscated_src` when
its `main.py` exists, else `src` (lines 119–121). -/
def uiBesideEntry (d : ProjectDirs) : Bool :=
  if d.obfMainExists then d.obfUiExists else d.srcUiExists

/-- `(entry_dir / "core").exists()` for the chosen entry directory. -/
def coreBesideEntry (d : ProjectDirs) : Bool :=
  if d.obfMainExists then d.obfCoreExists else d.srcCoreExists

/-- `minimal_mode = not ((entry_dir / "ui").exists() or (entry_dir / "core").exists())`
(line 121). -/
def minimalMode (d : ProjectDirs) : Bool :=
  !(uiBesideEntry d || coreBesideEntry d)

/-- Lines 179–278: the `--hidden-import=` flags appended to the
bundler command — none in minimal mode, the whole fixed list otherwise. -/
def hiddenImportArgs (d : ProjectDirs) : List String :=
  if minimalMode d then []
  else hiddenImportNames.map (fun m => "--hidden-import=" ++ m)

/-- An embedded database file, abstracted to the set of tables its
schema holds. -/
structure DbFileModel where
  tables : List String
deriving DecidableEq

/-- Lines 114–116: `sqlite3.connect(primary_db); conn.close()` — the
freshly created database file holds no tables at all (no schema
statement is ever executed). -/
def createdEmptyDb : DbFileModel := ⟨[]⟩

/-- Modelled from the spec (§6): a "minimally schema'd" database is one
with an `accounts` table and a `settings` key-value table. -/
def specSchemaOk (db : DbFileModel) : Bool :=
  db.tables.contains "accounts" && db.tables.contains "settings"

/-- `project_root / 'data' / 'accounts.db'` (line 108). -/
def primaryDbPath : FsPath := ["data", "accounts.db"]

/-- `project_root / 'src' / 'data' / 'accounts.db'` (line 109). -/
def secondaryDbPath : FsPath := ["src", "data", "accounts.db"]

/-- The database state after the creation block of lines 111–117:
whether each candidate now exists, and the content of a database the
block created (if any). -/
structure DbState where
  primaryExists : Bool
  secondaryExists : Bool
  created : Option DbFileModel
deriving DecidableEq

/-- Lines 111–117: when neither location exists, create the empty
database at the primary location. -/
def dbCreationStep (p s : Bool) : DbState :=
  if !p && !s then ⟨true, s, some createdEmptyDb⟩ else ⟨p, s, none⟩

/-- Lines 163–168: the `--add-data` database entries of the bundler
command, as (source path, destination virtual path) pairs, evaluated on
the filesystem state left by the creation block. -/
def dbDataEntries (p s : Bool) : List (FsPath × String) :=
  let st := dbCreationStep p s
  if st.primaryExists then [(primaryDbPath, "data")]
  else if st.secondaryExists then [(secondaryDbPath, "data")]
  else []

/-- Modelled from the spec (§4.6): the fixed static allow-list — the
GUI-toolkit, cryptographic, networking, browser-automation and standard
runtime facilities, part (a) of the HiddenImportSet union. -/
def staticAllowList : List String := [
  "PyQt6", "requests", "logging.handlers", "logging.config",
  "cryptography", "cryptography.hazmat", "cryptography.hazmat.backends",
  "cryptography.hazmat.primitives", "cryptography.hazmat.primitives.padding",
  "cryptography.hazmat.primitives.serialization", "cryptography.hazmat.primitives.hashes",
  "cryptography.hazmat.primitives.ciphers", "cryptography.hazmat.primitives.ciphers.modes",
  "cryptography.hazmat.primitives.ciphers.algorithms", "cryptography.hazmat.primitives.asymmetric",
  "cryptography.hazmat.primitives.asymmetric.padding", "jwt", "psutil",
  "imaplib", "email", "email.header", "email.utils", "uuid",
  "DrissionPage", "PyQt6.QtWebSockets"]

/-- Modelled from the spec (§4.6): the HiddenImportSet the claim
describes — the deduplicated union of the static allow-list with every
compiled artifact's module name reconstructed from its relative path,
under both the flat and the `src.`-namespaced form. -/
def specHiddenImportSet (artifacts : List FsPath) : List String :=
  (staticAllowList ++ artifacts.map moduleNameOf
    ++ artifacts.map (fun p => "src." ++ moduleNameOf p)).dedup

/-- The application's own module names hard-coded in the hidden-import
list, in their flat form. -/
def appModuleNames : List String :=
  hiddenImportNames.filter
    (fun m => strStarts m "ui." || strStarts m "core." || strStarts m "utils.")

/-- What the pipeline's tail (lines 288–377) leaves behind: the process
exit code (0 = success), whether the distribution archive was produced
(lines 369–375), whether the bundler-failure message of line 290 was
printed, and whether the diagnostic directory listing of lines 335–345
was printed. -/
structure PipelineFinish where
  exitCode : Nat
  archiveProduced : Bool
  buildFailMsg : Bool
  dbListingPrinted : Bool
deriving DecidableEq

/-- Lines 288–377 of `main`, from the bundler subprocess's return code
onward.  `rc` is the bundler's exit code; `appExists` is
`(dist/CursorProManager.app).exists()`; `loc1 loc2 loc3` are the three
candidate embedded database locations of lines 308–312; `walkFound` is
whether the recursive `os.walk` of lines 324–332 finds `accounts.db`. -/
def postBundlePhase (rc : Int) (appExists loc1 loc2 loc3 walkFound : Bool) :
    PipelineFinish :=
  if !(rc == 0) then ⟨1, false, true, false⟩
  else if !appExists then ⟨1, false, false, false⟩
  else
    let foundAtLoc := loc1 || loc2 || loc3
    ⟨0, true, false, !foundAtLoc && !walkFound⟩

/-- The ambient process state `build_modules` touches: the current
working directory and `sys.path`. -/
structure ProcState where
  cwd : String
  sysPath : List String
deriving DecidableEq

/-- How the opaque `setup(**setup_args)` call of line 59 can end: normal
return, `SystemExit('0')` (swallowed by lines 60–62), a non-zero
`SystemExit`, or any other error. -/
inductive SetupOutcome
  | ok
  | sysExitZero
  | sysExitNonzero
  | raisedError
deriving DecidableEq

/-- Whether the exception escapes `build_modules` (lines 60–62 re-raise
everything but `SystemExit('0')`). -/
def setupPropagates : SetupOutcome → Bool
  | .ok => false
  | .sysExitZero => false
  | .sysExitNonzero => true
  | .raisedError => true

/-- Lines 54–64: save `os.getcwd()`, `os.chdir(src_dir)`, append
`src_dir` to `sys.path` when absent, run `setup`, and restore the saved
directory in the `finally` block.  Returns the ambient state after the
call together with whether an exception propagates out of it. -/
def compileScopedRun (st : ProcState) (srcDir : String) (r : SetupOutcome) :
    ProcState × Bool :=
  let saved := st.cwd
  let st1 : ProcState := { st with cwd := srcDir }
  let st2 : ProcState :=
    if st1.sysPath.contains srcDir then st1
    else { st1 with sysPath := st1.sysPath ++ [srcDir] }
  ({ st2 with cwd := saved }, setupPropagates r)

/-! ## Qt plugin pruning (`find_plugins_dir`, `prune_qt_plugins`) -/

/-- The three candidate plugin directories of lines 8–12, relative to
the `.app` bundle root. -/
def pluginCandidates : List FsPath :=
  [["Contents", "MacOS", "PyQt6", "Qt6", "plugins"],
   ["Contents", "MacOS", "Qt6", "plugins"],
   ["Contents", "Resources", "PyQt6", "Qt6", "plugins"]]

/-- `p.exists()` for a directory candidate: some entry of the tree lies
at or under it. -/
def pathPresent (fs : Fs) (d : FsPath) : Bool := fs.any (fun e => isPre d e.1)

/-- `find_plugins_dir` (lines 7–16): the first candidate that exists. -/
def findPluginsDir (fs : Fs) : Option FsPath :=
  pluginCandidates.find? (fun c => pathPresent fs c)

/-- `plugins_dir.parent.parent / "translations"` (line 27). -/
def transDirOf (pd : FsPath) : FsPath := pd.dropLast.dropLast ++ ["translations"]

/-- `p` lies strictly under directory `d`. -/
def properUnder (d p : FsPath) : Bool := isPre d p && decide (d.length < p.length)

/-- The name of `p` when it is a direct child of directory `d` (an entry
`iterdir` yields whose `is_file()` holds in the file-entry model). -/
def directChildName (d p : FsPath) : Option String :=
  if isPre d p && p.length == d.length + 1 then p.getLast? else none

/-- The four pruned plugin subdirectories with their keep-lists
(lines 30–53), in the order the code processes them. -/
def qtKeepTable : List (String × List String) :=
  [("platforms", ["qcocoa.dylib", "libqcocoa.dylib"]),
   ("imageformats", ["qpng.dylib", "libqpng.dylib", "qjpeg.dylib", "libqjpeg.dylib",
                     "qsvg.dylib", "libqsvg.dylib"]),
   ("tls", ["qsecuretransport.dylib", "libqsecuretransport.dylib",
            "qopensslbackend.dylib", "libqopensslbackend.dylib"]),
   ("iconengines", ["qsvgicon.dylib", "libqsvgicon.dylib"])]

/-- The survival condition one keep-list block imposes on a path: a
direct-child file of `pd/<sub>` survives iff its lower-cased name is on
the keep-list; everything else is untouched by that block. -/
def childOk (pd : FsPath) (sub : String) (keep : List String) (p : FsPath) : Bool :=
  match directChildName (pd ++ [sub]) p with
  | some nm => keep.contains (lowerStr nm)
  | none => true

/-- One `for p in <sub>.iterdir(): ... unlink()` block. -/
def pruneOneDir (pd : FsPath) (sub : String) (keep : List String) (fs : Fs) : Fs :=
  fs.filter (fun e => childOk pd sub keep e.1)

/-- The body of `prune_qt_plugins` once the plugin directory is found:
delete the translations tree, then apply the four keep-list blocks. -/
def pruneWith (fs : Fs) (pd : FsPath) : Fs :=
  let fs1 := fs.filter (fun e => !(properUnder (transDirOf pd) e.1))
  qtKeepTable.foldl (fun acc sk => pruneOneDir pd sk.1 sk.2 acc) fs1

/-- `prune_qt_plugins` (lines 18–54): locate the plugin directory; a
miss skips pruning (the Bool records whether pruning ran). -/
def pruneQtPlugins (fs : Fs) : Fs × Bool :=
  match findPluginsDir fs with
  | none => (fs, false)
  | some pd => (pruneWith fs pd, true)

/-! ## Helper lemmas -/

theorem string_data_append (s t : String) : (s ++ t).data = s.data ++ t.data := by
  cases s; cases t; rfl

theorem strEnds_append (x pat : String) : strEnds (x ++ pat) pat = true := by
  unfold strEnds
  rw [string_data_append]
  simp [List.length_append, List.drop_left]

theorem strStarts_append (pat x : String) : strStarts (pat ++ x) pat = true := by
  unfold strStarts
  rw [string_data_append]
  simp [List.take_left]

theorem strEnds_eq_of_len (s p q : String) (hlen : p.data.length = q.data.length)
    (hs : strEnds s p = true) (hne : p.data ≠ q.data) : strEnds s q = false := by
  unfold strEnds at hs ⊢
  rw [beq_iff_eq] at hs
  rw [beq_eq_false_iff_ne, ← hlen, hs]
  exact hne

theorem strEnds_shorter (s p q : String) (hlen : q.data.length + 1 = p.data.length)
    (hs : strEnds s p = true) (hne : p.data.drop 1 ≠ q.data) : strEnds s q = false := by
  unfold strEnds at hs ⊢
  rw [beq_iff_eq] at hs
  rw [beq_eq_false_iff_ne]
  intro hq
  have hl := congrArg List.length hs
  rw [List.length_drop] at hl
  have hidx : s.data.length - q.data.length = (s.data.length - p.data.length) + 1 := by
    omega
  rw [hidx, ← List.drop_drop, hs] at hq
  exact hne hq

theorem fileName_concat (l : FsPath) (a : String) : fileName (l ++ [a]) = a := by
  simp [fileName]

theorem filter_filter_not (t : Fs) (q : FsPath) :
    (t.filter (fun e => !(e.1 == q))).filter (fun e => e.1 == q) = [] := by
  induction t with
  | nil => rfl
  | cons a t ih =>
    by_cases h : a.1 = q
    · simp [List.filter_cons, h, ih]
    · simp [List.filter_cons, h, ih]

theorem fsCount_append (t₁ t₂ : Fs) (q : FsPath) :
    fsCount (t₁ ++ t₂) q = fsCount t₁ q + fsCount t₂ q := by
  unfold fsCount
  rw [List.filter_append, List.length_append]

theorem fsCount_eq_countP (t : Fs) (q : FsPath) :
    fsCount t q = t.countP (fun e => e.1 == q) := by
  rw [fsCount, List.countP_eq_length_filter]

theorem fsCount_filter (t : Fs) (f : FsPath → Bool) (q : FsPath) :
    fsCount (t.filter (fun e => f e.1)) q = if f q then fsCount t q else 0 := by
  by_cases hf : f q
  · rw [if_pos hf, fsCount_eq_countP, fsCount_eq_countP, List.countP_filter]
    apply List.countP_congr
    intro e _
    by_cases hq : e.1 = q
    · simp [hq, hf]
    · simp [hq]
  · rw [if_neg hf, fsCount_eq_countP, List.countP_filter]
    apply List.countP_eq_zero.2
    intro e _
    by_cases hq : e.1 = q
    · simp [hq, hf]
    · simp [hq]

theorem fsCount_fsWrite_self (t : Fs) (q : FsPath) (c : String) :
    fsCount (fsWrite t q c) q = 1 := by
  unfold fsWrite
  rw [fsCount_append]
  have h1 : fsCount (t.filter (fun e => !(e.1 == q))) q = 0 := by
    rw [fsCount_filter t (fun p => !(p == q)) q]
    simp
  rw [h1]
  simp [fsCount]

theorem fsCount_fsWrite_ne (t : Fs) (q q' : FsPath) (c : String) (h : q' ≠ q) :
    fsCount (fsWrite t q c) q' = fsCount t q' := by
  unfold fsWrite
  rw [fsCount_append]
  have h1 : fsCount (t.filter (fun e => !(e.1 == q))) q' = fsCount t q' := by
    rw [fsCount_filter t (fun p => !(p == q)) q']
    simp [h]
  have h2 : fsCount [(q, c)] q' = 0 := by
    simp [fsCount, List.filter_cons, Ne.symm h]
  rw [h1, h2, Nat.add_zero]

theorem writeAll_cons (t : Fs) (w : FsEntry) (ws : List FsEntry) :
    writeAll t (w :: ws) = writeAll (fsWrite t w.1 w.2) ws := rfl

theorem fsCount_writeAll_not_mem (ws : List FsEntry) (t : Fs) (q : FsPath)
    (h : q ∉ ws.map Prod.fst) : fsCount (writeAll t ws) q = fsCount t q := by
  induction ws generalizing t with
  | nil => rfl
  | cons w ws ih =>
    simp only [List.map_cons, List.mem_cons, not_or] at h
    rw [writeAll_cons, ih _ h.2, fsCount_fsWrite_ne _ _ _ _ h.1]

theorem fsCount_writeAll_mem (ws : List FsEntry) (t : Fs) (q : FsPath)
    (h : q ∈ ws.map Prod.fst) : fsCount (writeAll t ws) q = 1 := by
  induction ws generalizing t with
  | nil => simp at h
  | cons w ws ih =>
    rw [writeAll_cons]
    by_cases hm : q ∈ ws.map Prod.fst
    · exact ih _ hm
    · have hq : q = w.1 := by
        simp only [List.map_cons, List.mem_cons] at h
        tauto
      rw [fsCount_writeAll_not_mem _ _ _ hm, hq, fsCount_fsWrite_self]

theorem mem_writeAll_of_ne (ws : List FsEntry) (t : Fs) (x : FsEntry)
    (hx : x ∈ t) (h : ∀ w ∈ ws, x.1 ≠ w.1) : x ∈ writeAll t ws := by
  induction ws generalizing t with
  | nil => exact hx
  | cons w ws ih =>
    rw [writeAll_cons]
    refine ih _ ?_ (fun w' hw' => h w' (List.mem_cons_of_mem _ hw'))
    unfold fsWrite
    refine List.mem_append_left _ (List.mem_filter.2 ⟨hx, ?_⟩)
    simp [h w (List.mem_cons_self _ _)]

theorem exists_mem_of_fsCount_one (t : Fs) (q : FsPath) (h : fsCount t q = 1) :
    ∃ c, (q, c) ∈ t := by
  unfold fsCount at h
  have hne : t.filter (fun e => e.1 == q) ≠ [] := by
    intro hnil
    rw [hnil] at h
    simp at h
  obtain ⟨e, he⟩ := List.exists_mem_of_ne_nil _ hne
  have := List.mem_filter.1 he
  refine ⟨e.2, ?_⟩
  have hq : e.1 = q := by simpa using this.2
  have : (e.1, e.2) ∈ t := by simpa using this.1
  rwa [hq] at this

theorem scanEligible_iff (p : FsPath) :
    scanEligible p = true ↔
      ((p.head? = some "core" ∨ p.head? = some "utils" ∨ p.head? = some "ui")
        ∧ 2 ≤ p.length ∧ pyEligibleName (fileName p) = true
        ∧ relPathExcluded p = false) := by
  match p with
  | [] => simp [scanEligible]
  | [a] => simp [scanEligible]
  | a :: b :: rest =>
    simp only [scanEligible, targetDirs, List.headD, List.head?,
      List.elem_iff, List.mem_cons, List.not_mem_nil,
      or_false, Bool.and_eq_true, beq_iff_eq, Option.some.injEq,
      List.length_cons, Bool.not_eq_true']
    constructor
    · rintro ⟨⟨h1, h2⟩, h3⟩
      exact ⟨h1, by omega, h2, h3⟩
    · rintro ⟨h1, _, h2, h3⟩
      exact ⟨⟨h1, h2⟩, h3⟩

theorem mem_scanModules (tree : Fs) (p : FsPath) :
    p ∈ scanModules tree ↔ p ∈ tree.map Prod.fst ∧ scanEligible p = true := by
  rw [scanEligible_iff]
  unfold scanModules targetDirs filesUnderDir
  simp only [List.foldl_cons, List.foldl_nil, List.nil_append, List.mem_append,
    List.mem_filter, Bool.and_eq_true, beq_iff_eq, Option.some.injEq,
    decide_eq_true_eq, Bool.not_eq_true']
  constructor
  · rintro ((⟨⟨hm, hh, hl⟩, he, hx⟩ | ⟨⟨hm, hh, hl⟩, he, hx⟩) | ⟨⟨hm, hh, hl⟩, he, hx⟩)
    · exact ⟨hm, Or.inl hh, hl, he, hx⟩
    · exact ⟨hm, Or.inr (Or.inl hh), hl, he, hx⟩
    · exact ⟨hm, Or.inr (Or.inr hh), hl, he, hx⟩
  · rintro ⟨hm, (hh | hh | hh), hl, he, hx⟩
    · exact Or.inl (Or.inl ⟨⟨hm, hh, hl⟩, he, hx⟩)
    · exact Or.inl (Or.inr ⟨⟨hm, hh, hl⟩, he, hx⟩)
    · exact Or.inr ⟨⟨hm, hh, hl⟩, he, hx⟩

theorem fileName_buildOut (tag : String) (p : FsPath) :
    fileName (buildOutPath tag p) = soFileName p := by
  unfold buildOutPath artifactDest
  have : "build" :: ("lib." ++ tag) :: (p.dropLast ++ [soFileName p])
      = ("build" :: ("lib." ++ tag) :: p.dropLast) ++ [soFileName p] := by
    simp
  rw [this, fileName_concat]

theorem destOfBuild_buildOut (tag : String) (p : FsPath) :
    destOfBuild (buildOutPath tag p) = artifactDest p := by
  have hfn := fileName_buildOut tag p
  unfold destOfBuild
  rw [hfn]
  unfold buildOutPath
  have hdrop : (("build" :: ("lib." ++ tag) :: artifactDest p).drop 1).dropLast
      = ("lib." ++ tag) :: p.dropLast := by
    unfold artifactDest
    have : ("lib." ++ tag) :: (p.dropLast ++ [soFileName p])
        = (("lib." ++ tag) :: p.dropLast) ++ [soFileName p] := by simp
    simp only [List.drop_succ_cons, List.drop_zero, this, List.dropLast_concat]
  rw [hdrop]
  simp only [strStarts_append, if_pos]
  rfl

theorem soFileName_ends_so (p : FsPath) : strEnds (soFileName p) ".so" = true :=
  strEnds_append _ _

theorem ends_so_not_py (s : String) (h : strEnds s ".so" = true) :
    strEnds s ".py" = false :=
  strEnds_eq_of_len s ".so" ".py" rfl h (by decide)

theorem ends_so_not_c (s : String) (h : strEnds s ".so" = true) :
    strEnds s ".c" = false :=
  strEnds_shorter s ".so" ".c" rfl h (by decide)

theorem ends_py_not_so (s : String) (h : strEnds s ".py" = true) :
    strEnds s ".so" = false :=
  strEnds_eq_of_len s ".py" ".so" rfl h (by decide)

theorem ends_py_not_c (s : String) (h : strEnds s ".py" = true) :
    strEnds s ".c" = false :=
  strEnds_shorter s ".py" ".c" rfl h (by decide)

theorem dropLast_head_mem (a b : String) (rest : List String) :
    (a :: b :: rest).dropLast.headD "" = a := by
  rfl

/-- The artifact destination of an eligible module keeps the module's
leading directory component. -/
theorem artifactDest_head (a b : String) (rest : List String) :
    (artifactDest (a :: b :: rest)).head? = some a := by
  unfold artifactDest
  rcases rest with _ | ⟨c, rest⟩ <;> rfl

/-- C2: for every non-excluded source module present before compilation,
after the compile and strip stages exactly one compiled binary artifact
exists at the module's original relative path in the staged tree
(relocated out of the compiler's `lib.*`-tagged build subdirectory), and
the original interpretable `.py` file at that path has been deleted. -/
theorem compile_strip_completeness (tag : String) (tree : Fs) (p : FsPath)
    (hmem : p ∈ tree.map Prod.fst) (helig : scanEligible p = true) :
    fsCount (compileAndStrip tag tree) (artifactDest p) = 1 ∧
    fsCount (compileAndStrip tag tree) p = 0 := by
  have hscan : p ∈ scanModules tree := (mem_scanModules tree p).2 ⟨hmem, helig⟩
  obtain ⟨hh, hl, hpy, hexcl⟩ := (scanEligible_iff p).1 helig
  have hpy' := hpy
  unfold pyEligibleName at hpy'
  rw [Bool.and_eq_true] at hpy'
  obtain ⟨hpyname, hinit⟩ := hpy'
  have hne : (scanModules tree).isEmpty = false := by
    rcases hsm : scanModules tree with _ | ⟨m, ms⟩
    · rw [hsm] at hscan; simp at hscan
    · rfl
  unfold compileAndStrip buildModulesRun
  simp only [hne, Bool.false_eq_true, if_false]
  set ac := writeAll tree (compilerOutputs tag (scanModules tree)) with hac
  have hcount1 : fsCount ac (buildOutPath tag p) = 1 := by
    apply fsCount_writeAll_mem
    unfold compilerOutputs
    rw [List.map_map]
    exact List.mem_map.2 ⟨p, hscan, rfl⟩
  obtain ⟨c0, hc0⟩ := exists_mem_of_fsCount_one _ _ hcount1
  have hfilt : (buildOutPath tag p, c0) ∈
      ac.filter (fun e => isUnderBuild e.1 && strEnds (fileName e.1) ".so") := by
    refine List.mem_filter.2 ⟨hc0, ?_⟩
    have h1 : isUnderBuild (buildOutPath tag p) = true := by
      unfold isUnderBuild buildOutPath
      simp
    have h2 : strEnds (fileName (buildOutPath tag p)) ".so" = true := by
      rw [fileName_buildOut]
      exact soFileName_ends_so p
    simp [h1, h2]
  have hdest : artifactDest p ∈ (relocateWrites ac).map Prod.fst := by
    unfold relocateWrites
    rw [List.map_map]
    refine List.mem_map.2 ⟨(buildOutPath tag p, c0), hfilt, ?_⟩
    simp [destOfBuild_buildOut]
  have hcount2 : fsCount (writeAll ac (relocateWrites ac)) (artifactDest p) = 1 :=
    fsCount_writeAll_mem _ _ _ hdest
  -- the structure of p: at least two components, head a target directory
  rcases p with _ | ⟨a, tl⟩
  · simp at hl
  rcases tl with _ | ⟨b, rest⟩
  · simp at hl
  have hhead : (artifactDest (a :: b :: rest)).head? = some a := artifactDest_head a b rest
  have hso : strEnds (fileName (artifactDest (a :: b :: rest))) ".so" = true := by
    unfold artifactDest
    rw [fileName_concat]
    exact soFileName_ends_so _
  have hanotbuild : a ≠ "build" := by
    rcases hh with h | h | h <;> simp at h <;> rw [h] <;> decide
  have hckeep : cleanupKeep (artifactDest (a :: b :: rest)) = true := by
    unfold cleanupKeep isUnderBuild
    rw [ends_so_not_c _ hso, hhead]
    simp [hanotbuild]
  have hskeep : stripKeep (artifactDest (a :: b :: rest)) = true := by
    unfold stripKeep
    unfold artifactDest
    rw [fileName_concat, ends_so_not_py _ (soFileName_ends_so _)]
    simp
  have hpkeepC : cleanupKeep (a :: b :: rest) = true := by
    unfold cleanupKeep isUnderBuild
    rw [ends_py_not_c _ hpyname]
    simp [hanotbuild]
  have hpkeepS : stripKeep (a :: b :: rest) = false := by
    unfold stripKeep
    rw [hpyname, hexcl]
    have h1 : ((a :: b :: rest : FsPath) == entryPointPath) = false := by
      rw [beq_eq_false_iff_ne]
      unfold entryPointPath
      simp
    simp only [Bool.not_eq_true'] at hinit
    rw [h1, hinit]
    rfl
  constructor
  · unfold stripSources
    rw [fsCount_filter, if_pos hskeep, fsCount_filter, if_pos hckeep]
    exact hcount2
  · unfold stripSources
    rw [fsCount_filter, if_neg]
    rw [hpkeepS]
    simp

/-- Concrete run backing `compile_strip_completeness`: one eligible
module `core/a.py` in a two-file tree. -/
theorem compile_strip_completeness_witness :
    fsCount (compileAndStrip "macosx" [(["core", "a.py"], "A"), (["main.py"], "M")])
        (artifactDest ["core", "a.py"]) = 1 ∧
    fsCount (compileAndStrip "macosx" [(["core", "a.py"], "A"), (["main.py"], "M")])
        ["core", "a.py"] = 0 :=
  compile_strip_completeness "macosx" [(["core", "a.py"], "A"), (["main.py"], "M")]
    ["core", "a.py"] (by decide) (by decide)

theorem fileName_destOfBuild (p : FsPath) : fileName (destOfBuild p) = fileName p := by
  unfold destOfBuild
  rw [fileName_concat]

theorem stripKeep_of_excluded (q : FsPath) (h : relPathExcluded q = true) :
    stripKeep q = true := by
  unfold stripKeep
  rw [h]
  simp

/-- C5: for any module on the exclusion denylist (relative path contains
`turnstilePatch`), the compiler never produces a compiled artifact for
it — it is never scanned, and the spec-modelled toolchain emits exactly
one artifact per scanned module — and after the compile and strip stages
its original interpretable file still exists with its original content. -/
theorem excluded_module_untouched (tag : String) (tree : Fs) (q : FsPath) (c : String)
    (hexcl : relPathExcluded q = true) (hmem : (q, c) ∈ tree)
    (hpy : strEnds (fileName q) ".py" = true) (hnb : q.head? ≠ some "build") :
    (∀ m ∈ scanModules tree, m ≠ q) ∧ (q, c) ∈ compileAndStrip tag tree := by
  have hnotscan : ∀ m ∈ scanModules tree, m ≠ q := by
    intro m hm heq
    have helig := ((mem_scanModules tree m).1 hm).2
    rw [heq, scanEligible_iff] at helig
    obtain ⟨_, _, _, hx⟩ := helig
    rw [hexcl] at hx
    cases hx
  refine ⟨hnotscan, ?_⟩
  have hskeep : stripKeep q = true := stripKeep_of_excluded q hexcl
  have hckeep : cleanupKeep q = true := by
    unfold cleanupKeep isUnderBuild
    rw [ends_py_not_c _ hpy]
    have hb : (q.head? == some "build") = false := by
      rw [beq_eq_false_iff_ne]
      exact hnb
    rw [hb]
    rfl
  unfold compileAndStrip buildModulesRun
  by_cases hne : (scanModules tree).isEmpty = true
  · simp only [hne, if_true]
    exact List.mem_filter.2 ⟨hmem, hskeep⟩
  · simp only [hne, Bool.false_eq_true, if_false]
    have h1 : (q, c) ∈ writeAll tree (compilerOutputs tag (scanModules tree)) := by
      apply mem_writeAll_of_ne _ _ _ hmem
      intro w hw
      unfold compilerOutputs at hw
      obtain ⟨m, _, rfl⟩ := List.mem_map.1 hw
      intro habs
      have habs' : q = buildOutPath tag m := habs
      have : q.head? = some "build" := by rw [habs']; rfl
      exact hnb this
    set ac := writeAll tree (compilerOutputs tag (scanModules tree)) with hac
    have h2 : (q, c) ∈ writeAll ac (relocateWrites ac) := by
      apply mem_writeAll_of_ne _ _ _ h1
      intro w hw
      unfold relocateWrites at hw
      obtain ⟨e, he, rfl⟩ := List.mem_map.1 hw
      have hso : strEnds (fileName e.1) ".so" = true := by
        have := (List.mem_filter.1 he).2
        exact (Bool.and_eq_true _ _ ▸ this).2
      intro habs
      have habs' : q = destOfBuild e.1 := habs
      have hfn : fileName q = fileName e.1 := by
        rw [habs', fileName_destOfBuild]
      rw [hfn] at hpy
      rw [ends_py_not_so _ hpy] at hso
      cases hso
    apply List.mem_filter.2
    refine ⟨List.mem_filter.2 ⟨h2, hckeep⟩, hskeep⟩

/-- Concrete run backing `excluded_module_untouched`: the denylisted
module `core/turnstilePatch/x.py` survives a run that compiles
`core/a.py`. -/
theorem excluded_module_untouched_witness :
    (∀ m ∈ scanModules
        [(["core", "turnstilePatch", "x.py"], "T"), (["core", "a.py"], "A")],
      m ≠ ["core", "turnstilePatch", "x.py"]) ∧
    (["core", "turnstilePatch", "x.py"], "T") ∈ compileAndStrip "macosx"
        [(["core", "turnstilePatch", "x.py"], "T"), (["core", "a.py"], "A")] :=
  excluded_module_untouched "macosx"
    [(["core", "turnstilePatch", "x.py"], "T"), (["core", "a.py"], "A")]
    ["core", "turnstilePatch", "x.py"] "T" (by decide) (by decide) (by decide) (by decide)

/-- C10: the compiler helper considers for compilation exactly the `.py`
files under the `core`, `utils` or `ui` subdirectories of the source
directory, excluding `__init__.py` files and paths containing
`turnstilePatch`; in particular no top-level file (such as an
entry-point file) is ever scanned. -/
theorem scan_considers_exactly (tree : Fs) (p : FsPath) :
    (p ∈ scanModules tree ↔
      (p ∈ tree.map Prod.fst
        ∧ (p.head? = some "core" ∨ p.head? = some "utils" ∨ p.head? = some "ui")
        ∧ 2 ≤ p.length
        ∧ strEnds (fileName p) ".py" = true
        ∧ (fileName p == "__init__.py") = false
        ∧ relPathExcluded p = false))
    ∧ (∀ nm : String, [nm] ∉ scanModules tree) := by
  constructor
  · rw [mem_scanModules, scanEligible_iff]
    unfold pyEligibleName
    simp only [Bool.and_eq_true, Bool.not_eq_true']
    tauto
  · intro nm hmemnm
    have := ((mem_scanModules tree [nm]).1 hmemnm).2
    rw [scanEligible_iff] at this
    obtain ⟨_, hlen, _⟩ := this
    simp at hlen

/-- C1 counterexample: in a run with one compiled artifact at relative
path `core/new_module.so`, the spec's HiddenImportSet contains
`core.new_module`, but the hidden-import list the bundler invocation
actually receives is the fixed hard-coded list, which does not — so the
emitted set is not the claimed union of the allow-list with the
artifact-derived names (all other inputs held at a non-minimal run that
does emit hidden imports). -/
theorem hidden_imports_not_artifact_union :
    "core.new_module" ∈ specHiddenImportSet [["core", "new_module.so"]]
    ∧ "--hidden-import=core.new_module" ∉
        hiddenImportArgs ⟨true, true, true, true, true⟩
    ∧ hiddenImportArgs ⟨true, true, true, true, true⟩ ≠ [] := by
  refine ⟨by decide, by decide, by decide⟩

/-- C1 amended: the hidden-import list passed to the bundler is a fixed
hard-coded list, independent of which artifacts were compiled; whenever
hidden imports are emitted at all they are exactly that list, which is a
superset of the static allow-list (so the superset property holds, with
zero modules compiled included) and contains every hard-coded
application module name under both its flat and its `src.`-namespaced
form. -/
theorem hidden_imports_fixed_superset :
    staticAllowList.all (fun m => hiddenImportNames.contains m) = true
    ∧ appModuleNames.all (fun m =>
        hiddenImportNames.contains m
          && hiddenImportNames.contains ("src." ++ m)) = true
    ∧ (∀ d : ProjectDirs, hiddenImportArgs d = [] ∨
        hiddenImportArgs d = hiddenImportNames.map (fun m => "--hidden-import=" ++ m)) := by
  refine ⟨by decide, by decide, ?_⟩
  intro d
  unfold hiddenImportArgs
  by_cases h : minimalMode d = true
  · rw [if_pos h]
    exact Or.inl rfl
  · rw [if_neg h]
    exact Or.inr rfl

/-- C3 counterexample: when neither database location exists, the
creation block produces the bare file `sqlite3.connect` leaves behind —
a database with no tables at all, in particular no `accounts` table and
no `settings` table, so it is not the claimed schema-valid database. -/
theorem db_created_without_schema :
    dbCreationStep false false = ⟨true, false, some createdEmptyDb⟩
    ∧ createdEmptyDb.tables = []
    ∧ specSchemaOk createdEmptyDb = false := by
  exact ⟨rfl, rfl, rfl⟩

/-- C3 amended: database selection is deterministic with strict fallback
priority — primary if it exists, else secondary, else a freshly created
*schema-less empty* database file at the primary location (no `accounts`
or `settings` table is created) — and at most one database entry is ever
included in the manifest. -/
theorem db_fallback_deterministic :
    ∀ p s : Bool,
      dbDataEntries p s =
        (if p then [(primaryDbPath, "data")]
         else if s then [(secondaryDbPath, "data")]
         else [(primaryDbPath, "data")])
      ∧ (dbDataEntries p s).length ≤ 1
      ∧ (dbCreationStep p s).created
          = (if !p && !s then some createdEmptyDb else none) := by
  intro p s
  cases p <;> cases s <;> exact ⟨rfl, by decide, rfl⟩

/-- C4 counterexample: when the bundler subprocess exits with code 2,
the pipeline exits with code 1, not 2 — the subprocess's exit code is
not propagated (though the failure message is printed and no archive is
produced). -/
theorem bundler_exit_code_not_propagated :
    (postBundlePhase 2 true true true true true).exitCode = 1
    ∧ (postBundlePhase 2 true true true true true).exitCode ≠ 2
    ∧ (postBundlePhase 2 true true true true true).buildFailMsg = true
    ∧ (postBundlePhase 2 true true true true true).archiveProduced = false := by
  exact ⟨rfl, by decide, rfl, rfl⟩

/-- C4 amended: whenever the bundler subprocess exits non-zero, the
pipeline prints the failure message, produces no archive, and aborts
immediately — always with exit code 1, regardless of the subprocess's
own exit code. -/
theorem bundler_failure_aborts (rc : Int) (appE l1 l2 l3 w : Bool) (h : rc ≠ 0) :
    postBundlePhase rc appE l1 l2 l3 w = ⟨1, false, true, false⟩ := by
  unfold postBundlePhase
  have hb : (rc == 0) = false := by
    rw [beq_eq_false_iff_ne]
    exact h
  rw [hb]
  rfl

/-- Concrete instance backing `bundler_failure_aborts`: bundler exit
code 2. -/
theorem bundler_failure_aborts_witness :
    postBundlePhase 2 true false false false false = ⟨1, false, true, false⟩ :=
  bundler_failure_aborts 2 true false false false false (by decide)

/-- C6: after the bundler succeeds (exit code 0), the pipeline's exit
code is 1 when the bundle directory is absent and 0 when it is present —
independent of whether the embedded database is found at any candidate
location or by the recursive search; failing to find it anywhere only
prints the diagnostic directory listing. -/
theorem audit_exit_semantics :
    ∀ appE l1 l2 l3 w : Bool,
      (postBundlePhase 0 appE l1 l2 l3 w).exitCode = (if appE then 0 else 1)
      ∧ (postBundlePhase 0 appE l1 l2 l3 w).archiveProduced = appE
      ∧ (postBundlePhase 0 appE l1 l2 l3 w).dbListingPrinted
          = (appE && !l1 && !l2 && !l3 && !w) := by
  intro appE l1 l2 l3 w
  cases appE <;> cases l1 <;> cases l2 <;> cases l3 <;> cases w <;>
    exact ⟨rfl, rfl, rfl⟩

/-- C7 counterexample: starting from an empty `sys.path`, the compile
call leaves `sys.path` changed (the source directory has been appended
and is never removed), even though the working directory is restored —
so ambient process state other than the working directory *is* left
changed. -/
theorem sys_path_left_mutated :
    (compileScopedRun ⟨"/root", []⟩ "/proj/src" SetupOutcome.raisedError).1
      ≠ (⟨"/root", []⟩ : ProcState)
    ∧ (compileScopedRun ⟨"/root", []⟩ "/proj/src" SetupOutcome.raisedError).1.sysPath
      = ["/proj/src"]
    ∧ (compileScopedRun ⟨"/root", []⟩ "/proj/src" SetupOutcome.raisedError).1.cwd
      = "/root" := by
  exact ⟨by decide, rfl, rfl⟩

/-- C7 amended: the compiler driver restores the prior working directory
in every case — including when compilation raises an error that
propagates — but `sys.path` is left extended by the source directory
whenever that directory was not already on it. -/
theorem cwd_restored_sys_path_appended :
    ∀ (st : ProcState) (srcDir : String) (r : SetupOutcome),
      (compileScopedRun st srcDir r).1.cwd = st.cwd
      ∧ (compileScopedRun st srcDir r).1.sysPath
          = (if st.sysPath.contains srcDir then st.sysPath
             else st.sysPath ++ [srcDir])
      ∧ (compileScopedRun st srcDir r).2 = setupPropagates r := by
  intro st srcDir r
  refine ⟨rfl, ?_, rfl⟩
  simp [compileScopedRun, apply_ite ProcState.sysPath]

/-- C9: the bundler invocation emits hidden-import flags iff a `ui` or
`core` directory exists alongside the chosen entry-point file (minimal
mode holds exactly when both are absent); when either exists the entire
fixed list is passed, and when both are absent zero flags are passed. -/
theorem hidden_import_emission_iff :
    ∀ d : ProjectDirs,
      (hiddenImportArgs d = [] ↔
        (uiBesideEntry d = false ∧ coreBesideEntry d = false))
      ∧ hiddenImportArgs d
          = (if uiBesideEntry d || coreBesideEntry d
             then hiddenImportNames.map (fun m => "--hidden-import=" ++ m)
             else [])
      ∧ minimalMode d = (!uiBesideEntry d && !coreBesideEntry d) := by
  intro d
  obtain ⟨om, ou, oc, su, sc⟩ := d
  cases om <;> cases ou <;> cases oc <;> cases su <;> cases sc <;>
    exact ⟨by decide, rfl, rfl⟩

theorem childOk_iff (pd : FsPath) (sub : String) (keep : List String) (p : FsPath) :
    childOk pd sub keep p = true ↔
      ∀ nm, directChildName (pd ++ [sub]) p = some nm →
        keep.contains (lowerStr nm) = true := by
  unfold childOk
  rcases h : directChildName (pd ++ [sub]) p with _ | nm
  · simp
  · simp

theorem mem_pruneWith (fs : Fs) (pd : FsPath) (e : FsEntry) :
    e ∈ pruneWith fs pd ↔
      (e ∈ fs ∧ properUnder (transDirOf pd) e.1 = false
        ∧ ∀ sk ∈ qtKeepTable, childOk pd sk.1 sk.2 e.1 = true) := by
  unfold pruneWith qtKeepTable
  simp only [List.foldl_cons, List.foldl_nil]
  unfold pruneOneDir
  simp only [List.mem_filter, Bool.not_eq_true', List.forall_mem_cons]
  simp only [List.not_mem_nil, false_implies, implies_true, and_true]
  tauto

/-- C8: plugin pruning — when no plugin directory is found at any of the
candidate sub-paths the tree is left unchanged and pruning is skipped
without failing; when one is found, an entry of the bundle tree survives
iff it is not strictly under the translations directory and, whenever it
is a regular file directly inside one of the `platforms`,
`imageformats`, `tls`, `iconengines` plugin subdirectories, its
case-insensitive filename is on that subdirectory's keep-list. -/
theorem prune_qt_plugins_spec (fs : Fs) :
    (findPluginsDir fs = none → pruneQtPlugins fs = (fs, false))
    ∧ (∀ pd, findPluginsDir fs = some pd →
        (pruneQtPlugins fs).2 = true
        ∧ ∀ e, e ∈ (pruneQtPlugins fs).1 ↔
            (e ∈ fs ∧ properUnder (transDirOf pd) e.1 = false
              ∧ ∀ sk ∈ qtKeepTable,
                  ∀ nm, directChildName (pd ++ [sk.1]) e.1 = some nm →
                    sk.2.contains (lowerStr nm) = true)) := by
  constructor
  · intro h
    unfold pruneQtPlugins
    rw [h]
  · intro pd h
    unfold pruneQtPlugins
    rw [h]
    refine ⟨rfl, ?_⟩
    intro e
    rw [show ((pruneWith fs pd, true) : Fs × Bool).1 = pruneWith fs pd from rfl,
      mem_pruneWith]
    constructor
    · rintro ⟨hm, ht, hall⟩
      exact ⟨hm, ht, fun sk hsk nm hnm => (childOk_iff _ _ _ _).1 (hall sk hsk) nm hnm⟩
    · rintro ⟨hm, ht, hall⟩
      exact ⟨hm, ht, fun sk hsk => (childOk_iff _ _ _ _).2 (hall sk hsk)⟩
